import Mathlib

/-!
Shallow embedding of the GUI logic of `src/watermark/gui/app.py`
(repository BoboTiG/watermark-gui).

The embedded pieces are:
- the OK-button enablement rule (`MainWindow.button_ok_state`);
- the lazily cached optimization gate (`MainWindow.use_optimization`);
- the batch processor (`MainWindow._process_all`), with the external
  collaborators (`apply_watermarks`, `optimize`, `validate_key`,
  `Path.stat().st_size`) passed in as function parameters;
- the droppable, auto-sorting file list (`DroppableQList`): the widget is
  created with `setSortingEnabled(True)`, so adding an item places it at
  its position in ascending string order;
- the guarded startup update check (`MainWindow._check_for_update`).

Pure UI chrome (layouts, icons, dialogs) is out of scope; state that the
claims mention (text field, picture field, queue contents, statistics,
gate cache, button enablement) is modelled explicitly.
-/

/-- `MainWindow.stats`: the three accumulated metrics, created as zeros in
`MainWindow.__init__` (`{"count": 0, "size_before": 0, "size_after": 0}`).
Sizes come from `Path.stat().st_size`, which is a non-negative integer,
hence `Nat`. -/
structure Stats where
  count : Nat
  size_before : Nat
  size_after : Nat
deriving DecidableEq, Repr

/-- The fields of the global settings object `CONF` that the embedded code
reads or writes. -/
structure ConfState where
  text : String
  picture : String
  optimize : Bool
  tinify_key : String
deriving DecidableEq, Repr

/-- The three cache attributes backing `MainWindow.use_optimization`:
`_old_key`, `_old_state`, `_use_optimization`, all initialised to `None`
in `__init__`. -/
structure GateCache where
  old_key : Option String
  old_state : Option Bool
  cached : Option Bool
deriving DecidableEq, Repr

/-- Result of one read of the `use_optimization` property: the boolean
value returned, the cache attributes afterwards, and how many times
`validate_key` was invoked during the read (0 or 1). -/
structure GateResult where
  value : Bool
  cache : GateCache
  validateCalls : Nat
deriving DecidableEq, Repr

/-- `MainWindow.use_optimization` (app.py lines 99-110): recompute when the
cached value is `None` or the key or the toggle differs from the remembered
ones; `CONF.optimize and validate_key(key)` short-circuits, so
`validate_key` runs only when the toggle is on. -/
def use_optimization (validateKey : String → Bool) (conf : ConfState)
    (g : GateCache) : GateResult :=
  if g.cached = none ∨ some conf.tinify_key ≠ g.old_key
      ∨ some conf.optimize ≠ g.old_state then
    let v := conf.optimize && validateKey conf.tinify_key
    { value := v,
      cache := { old_key := some conf.tinify_key,
                 old_state := some conf.optimize,
                 cached := some v },
      validateCalls := if conf.optimize then 1 else 0 }
  else
    { value := g.cached.getD false, cache := g, validateCalls := 0 }

/-- `n` consecutive reads of the `use_optimization` property with the
settings unchanged in between; returns the final cache and the total
number of `validate_key` invocations. -/
def gateReads (validateKey : String → Bool) (conf : ConfState) :
    Nat → GateCache → GateCache × Nat
  | 0, g => (g, 0)
  | n + 1, g =>
    let r := use_optimization validateKey conf g
    let rest := gateReads validateKey conf n r.cache
    (rest.1, r.validateCalls + rest.2)

/-- `MainWindow.button_ok_state` (app.py lines 112-118):
`bool(self.text.text() or self.picture.text()) and self.paths_list.count() > 0`.
A Python string is truthy exactly when it is non-empty. -/
def button_ok_state (text picture : String) (count : Nat) : Bool :=
  (!(text == "") || !(picture == "")) && decide (0 < count)

/-- `DroppableQList.exists` (app.py lines 287-288): membership by exact
string equality over the current items. -/
def existsPath (items : List String) (path : String) : Bool :=
  items.any (fun it => it == path)

/-- Strict lexicographic order on character lists, comparing code points -
the order Qt uses to sort the list widget rows (case-sensitive string
comparison). -/
def lexLt : List Char → List Char → Bool
  | [], [] => false
  | [], _ :: _ => true
  | _ :: _, [] => false
  | a :: as, b :: bs =>
    if a.toNat < b.toNat then true
    else if b.toNat < a.toNat then false
    else lexLt as bs

/-- Strict ascending string order on paths, by code points. -/
def strLt (a b : String) : Bool := lexLt a.data b.data

/-- Insertion into the auto-sorted `QListWidget`: because the widget is
created with `setSortingEnabled(True)`, `addItem` places the new row at its
position in ascending order. Ties cannot arise in reachable states because
`dropEvent` inserts only paths that are not already present. -/
def insertSorted (p : String) : List String → List String
  | [] => [p]
  | q :: qs => if strLt p q then p :: q :: qs else q :: insertSorted p qs

/-- `DroppableQList.dropEvent` (app.py lines 298-310): for each dropped URL
in order, skip it when already present, otherwise add it to the sorted
list. -/
def dropEvent (items : List String) (urls : List String) : List String :=
  urls.foldl (fun acc p => if existsPath acc p then acc else insertSorted p acc)
    items

/-- The external collaborators of `MainWindow._process_all`, passed in as
functions: `apply_watermarks`, `optimize`, `validate_key`, and file-size
lookup (`Path.stat().st_size`). File paths are modelled as strings. -/
structure Collab where
  applyWatermarks : List String → String → String → List (String × Option String)
  optimizeFn : String → Option String
  validateKey : String → Bool
  fileSize : String → Nat

/-- The state threaded through the per-file loop of `_process_all`:
statistics, the files deleted by `path_new.unlink()`, the recorded output
path of each processed file, the gate cache, and the number of
`validate_key` invocations so far. -/
structure LoopState where
  stats : Stats
  deleted : List String
  outputs : List String
  gate : GateCache
  validateCalls : Nat
deriving Repr

/-- One iteration of the loop in `_process_all` (app.py lines 246-266) on a
pair `(path_orig, path_new)` yielded by `apply_watermarks`:
- `if not path_new: continue` - a skipped file changes nothing;
- otherwise `self.use_optimization` is read; when true, `optimize(path_new)`
  returning a replacement deletes the pre-optimization file and rebinds
  `path_new` to the replacement, while `None` keeps the unoptimized file;
- the statistics then grow by 1 / size of the original / size of the final
  output, and the status-bar refresh `_status_msg()` reads the gate once
  more. The rebinding of `path_new` is split here into its final value
  (`pathNew`) and the unlink side effect (`deleted`). -/
def processStep (c : Collab) (conf : ConfState) (ls : LoopState)
    (res : String × Option String) : LoopState :=
  match res.2 with
  | none => ls
  | some pathNew0 =>
    let pathOrig := res.1
    let r1 := use_optimization c.validateKey conf ls.gate
    let pathNew :=
      if r1.value then
        match c.optimizeFn pathNew0 with
        | some popt => popt
        | none => pathNew0
      else pathNew0
    let deleted :=
      if r1.value then
        match c.optimizeFn pathNew0 with
        | some _ => ls.deleted ++ [pathNew0]
        | none => ls.deleted
      else ls.deleted
    let r2 := use_optimization c.validateKey conf r1.cache
    { stats := { count := ls.stats.count + 1,
                 size_before := ls.stats.size_before + c.fileSize pathOrig,
                 size_after := ls.stats.size_after + c.fileSize pathNew },
      deleted := deleted,
      outputs := ls.outputs ++ [pathNew],
      gate := r2.cache,
      validateCalls := ls.validateCalls + r1.validateCalls + r2.validateCalls }

/-- The window state the embedded methods touch: the `CONF` settings, the
two line edits, the file list items (in display order, which is sorted),
the statistics, the gate cache, and the OK-button enablement. -/
structure WinState where
  conf : ConfState
  textField : String
  pictureField : String
  queue : List String
  stats : Stats
  gate : GateCache
  buttonEnabled : Bool
deriving Repr

/-- Observable outcome of one `_process_all` call: the window afterwards,
the deleted and recorded-output paths, the path list handed to
`apply_watermarks`, whether `apply_watermarks` was invoked at all, whether
`button_ok_state` was re-run at the end, and how many times `validate_key`
ran. -/
structure BatchResult where
  window : WinState
  deleted : List String
  outputs : List String
  handed : List String
  wmCalled : Bool
  buttonRecomputed : Bool
  validateCalls : Nat
deriving Repr

/-- `MainWindow._process_all` (app.py lines 233-272): write the two line
edits into `CONF`; collect the list items in display order; return early on
an empty list; otherwise feed the paths to `apply_watermarks`, run the
per-file loop, clear the list, and re-run `button_ok_state` (whose count
is 0 after the clear). -/
def _process_all (c : Collab) (w : WinState) : BatchResult :=
  let conf := { w.conf with text := w.textField, picture := w.pictureField }
  let paths := w.queue
  if paths.isEmpty then
    { window := { w with conf := conf },
      deleted := [], outputs := [], handed := [], wmCalled := false,
      buttonRecomputed := false, validateCalls := 0 }
  else
    let results := c.applyWatermarks paths conf.text conf.picture
    let ls0 : LoopState :=
      { stats := w.stats, deleted := [], outputs := [],
        gate := w.gate, validateCalls := 0 }
    let ls := results.foldl (processStep c conf) ls0
    { window := { conf := conf, textField := w.textField,
                  pictureField := w.pictureField, queue := [],
                  stats := ls.stats, gate := ls.gate,
                  buttonEnabled := button_ok_state w.textField w.pictureField 0 },
      deleted := ls.deleted, outputs := ls.outputs, handed := paths,
      wmCalled := true, buttonRecomputed := true,
      validateCalls := ls.validateCalls }

/-- `_process_all` when the `apply_watermarks` collaborator may fail: its
outcome is passed as an `Except`. The method installs no handler around the
loop, so a failure propagates to the caller unchanged. -/
def _process_all_fallible (wmRun : Except String (List (String × Option String)))
    (c : Collab) (w : WinState) : Except String BatchResult :=
  let conf := { w.conf with text := w.textField, picture := w.pictureField }
  if w.queue.isEmpty then
    Except.ok
      { window := { w with conf := conf },
        deleted := [], outputs := [], handed := [], wmCalled := false,
        buttonRecomputed := false, validateCalls := 0 }
  else
    match wmRun with
    | Except.error e => Except.error e
    | Except.ok results =>
      let ls0 : LoopState :=
        { stats := w.stats, deleted := [], outputs := [],
          gate := w.gate, validateCalls := 0 }
      let ls := results.foldl (processStep c conf) ls0
      Except.ok
        { window := { conf := conf, textField := w.textField,
                      pictureField := w.pictureField, queue := [],
                      stats := ls.stats, gate := ls.gate,
                      buttonEnabled := button_ok_state w.textField w.pictureField 0 },
          deleted := ls.deleted, outputs := ls.outputs, handed := w.queue,
          wmCalled := true, buttonRecomputed := true,
          validateCalls := ls.validateCalls }

/-- The status message shown when the update check fails,
`TR.get("UPDATE_ERROR")`. -/
def UPDATE_ERROR : String := "UPDATE_ERROR"

/-- `MainWindow._check_for_update` (app.py lines 120-131): a no-op off
Windows; on Windows the `updater.check(__version__)` call is wrapped in
`try/except Exception`, and any failure becomes the status-bar message
`TR.get("UPDATE_ERROR")`. The collaborator outcome is passed as an
`Except`; the returned value is the status message posted (`none` when the
status bar is left alone), and the function is total: no failure escapes. -/
def _check_for_update (windows : Bool)
    (checkResult : Except String Unit) : Option String :=
  if !windows then none
  else
    match checkResult with
    | Except.ok _ => none
    | Except.error _ => some UPDATE_ERROR

/-- `MainWindow.__init__`: statistics start at zero, the three gate cache
attributes start as `None`, the line edits are seeded from `CONF.text` and
`CONF.picture`, the file list starts empty, the startup status-bar refresh
`_status_msg()` performs one read of `use_optimization`, and
`button_ok_state()` runs last (with an empty list, so count is 0). -/
def initWindow (validateKey : String → Bool) (conf : ConfState) : WinState :=
  let g0 : GateCache := { old_key := none, old_state := none, cached := none }
  let r := use_optimization validateKey conf g0
  { conf := conf, textField := conf.text, pictureField := conf.picture,
    queue := [], stats := { count := 0, size_before := 0, size_after := 0 },
    gate := r.cache,
    buttonEnabled := button_ok_state conf.text conf.picture 0 }

/-! ### Concrete fixtures used by witnesses and counterexamples -/

/-- A concrete collaborator: the watermarker skips every file, optimization
never replaces, the key is invalid, all sizes are zero. -/
def trivCollab : Collab :=
  { applyWatermarks := fun ps _ _ => ps.map (fun p => (p, none)),
    optimizeFn := fun _ => none,
    validateKey := fun _ => false,
    fileSize := fun _ => 0 }

/-- A concrete settings state with the optimization toggle off. -/
def confA : ConfState :=
  { text := "sample", picture := "", optimize := false, tinify_key := "" }

/-- A concrete window holding one queued file. -/
def wC3 : WinState :=
  { conf := confA, textField := "sample", pictureField := "",
    queue := ["a.jpg"],
    stats := { count := 0, size_before := 0, size_after := 0 },
    gate := { old_key := none, old_state := none, cached := none },
    buttonEnabled := true }

/-- The queue obtained by dropping `b.png` first and `a.jpg` second. -/
def wDropBA : WinState :=
  { wC3 with queue := dropEvent (dropEvent [] ["b.png"]) ["a.jpg"] }

/-! ### Helper lemmas -/

theorem processStep_none (c : Collab) (conf : ConfState) (ls : LoopState)
    (p : String) : processStep c conf ls (p, none) = ls := rfl

theorem processStep_some_count (c : Collab) (conf : ConfState) (ls : LoopState)
    (p q : String) :
    (processStep c conf ls (p, some q)).stats.count = ls.stats.count + 1 := rfl

theorem foldl_processStep_filter (c : Collab) (conf : ConfState) :
    ∀ (results : List (String × Option String)) (ls0 : LoopState),
      results.foldl (processStep c conf) ls0
        = (results.filter (fun r => r.2.isSome)).foldl (processStep c conf) ls0
  | [], _ => rfl
  | (p, none) :: rs, ls0 => by
    simpa [processStep_none] using foldl_processStep_filter c conf rs ls0
  | (p, some q) :: rs, ls0 => by
    simpa using
      foldl_processStep_filter c conf rs (processStep c conf ls0 (p, some q))

theorem foldl_processStep_count (c : Collab) (conf : ConfState) :
    ∀ (results : List (String × Option String)) (ls0 : LoopState),
      (results.foldl (processStep c conf) ls0).stats.count
        = ls0.stats.count + results.countP (fun r => r.2.isSome)
  | [], _ => by simp
  | (p, none) :: rs, ls0 => by
    simp [processStep_none, foldl_processStep_count c conf rs ls0,
      List.countP_cons]
  | (p, some q) :: rs, ls0 => by
    simp [foldl_processStep_count c conf rs (processStep c conf ls0 (p, some q)),
      processStep_some_count, List.countP_cons]
    omega

/-! ### Claims -/

/-- Claim C1: for every queue state and every pair of inputs, the OK button
is enabled iff (text is non-empty OR picture is non-empty) AND the queue is
non-empty; `button_ok_state` computes this as a pure function of the text
field, the picture field, and the list count. -/
theorem c1_button_ok_state (text picture : String) (count : Nat) :
    button_ok_state text picture count = true
      ↔ (text ≠ "" ∨ picture ≠ "") ∧ 0 < count := by
  simp [button_ok_state, ne_eq]

/-- Claim C2: statistics are incremented only for files for which the
watermarking collaborator returns a non-none new path. A skipped file
(`None`) leaves the loop state exactly as it was, so the whole run equals
the run over the non-skipped files alone, and the processed count grows by
exactly the number of non-none results. -/
theorem c2_stats_skip_none (c : Collab) (conf : ConfState) (ls0 : LoopState)
    (results : List (String × Option String)) :
    (∀ p, processStep c conf ls0 (p, none) = ls0)
    ∧ results.foldl (processStep c conf) ls0
        = (results.filter (fun r => r.2.isSome)).foldl (processStep c conf) ls0
    ∧ (results.foldl (processStep c conf) ls0).stats.count
        = ls0.stats.count + results.countP (fun r => r.2.isSome) :=
  ⟨fun p => processStep_none c conf ls0 p,
   foldl_processStep_filter c conf results ls0,
   foldl_processStep_count c conf results ls0⟩

theorem existsPath_iff {items : List String} {path : String} :
    existsPath items path = true ↔ path ∈ items := by
  simp [existsPath]

theorem existsPath_eq_false {items : List String} {path : String} :
    existsPath items path = false ↔ path ∉ items := by
  rw [← existsPath_iff]
  simp

theorem insertSorted_perm (p : String) :
    ∀ l : List String, (insertSorted p l).Perm (p :: l)
  | [] => List.Perm.refl _
  | q :: qs => by
    rw [insertSorted]
    split
    · exact List.Perm.refl _
    · exact ((insertSorted_perm p qs).cons q).trans (List.Perm.swap p q qs)

theorem mem_insertSorted {a p : String} {l : List String} :
    a ∈ insertSorted p l ↔ a = p ∨ a ∈ l := by
  rw [(insertSorted_perm p l).mem_iff]
  simp

theorem nodup_insertSorted {p : String} {l : List String}
    (hp : p ∉ l) (h : l.Nodup) : (insertSorted p l).Nodup :=
  (insertSorted_perm p l).nodup_iff.2 (List.nodup_cons.2 ⟨hp, h⟩)

theorem dropEvent_cons (items : List String) (u : String) (us : List String) :
    dropEvent items (u :: us)
      = dropEvent (if existsPath items u then items else insertSorted u items)
          us := rfl

theorem dropEvent_nodup :
    ∀ (urls items : List String), items.Nodup → (dropEvent items urls).Nodup
  | [], _, h => h
  | u :: us, items, h => by
    rw [dropEvent_cons]
    apply dropEvent_nodup us
    by_cases hx : existsPath items u = true
    · rw [if_pos hx]
      exact h
    · rw [if_neg hx]
      exact nodup_insertSorted
        (existsPath_eq_false.1 (Bool.eq_false_iff.2 hx)) h

theorem foldl_dropEvent_nodup :
    ∀ (drops : List (List String)) (items : List String),
      items.Nodup → (drops.foldl dropEvent items).Nodup
  | [], _, h => h
  | d :: ds, items, h =>
    foldl_dropEvent_nodup ds (dropEvent items d) (dropEvent_nodup d items h)

/-- Claim C3: a batch triggered on a non-empty queue always ends with the
queue empty and the OK-button enablement recomputed (over the emptied
list), no matter what the watermarking collaborator returned for each
file. -/
theorem c3_batch_clears_queue (c : Collab) (w : WinState)
    (h : w.queue ≠ []) :
    (_process_all c w).window.queue = []
    ∧ (_process_all c w).buttonRecomputed = true
    ∧ (_process_all c w).window.buttonEnabled
        = button_ok_state w.textField w.pictureField 0 := by
  have hfalse : w.queue.isEmpty = false := by
    cases hq : w.queue with
    | nil => exact absurd hq h
    | cons a l => rfl
  simp [_process_all, hfalse]

theorem c3_witness :
    wC3.queue ≠ []
    ∧ ((_process_all trivCollab wC3).window.queue = []
       ∧ (_process_all trivCollab wC3).buttonRecomputed = true
       ∧ (_process_all trivCollab wC3).window.buttonEnabled
           = button_ok_state wC3.textField wC3.pictureField 0) :=
  ⟨by decide, c3_batch_clears_queue trivCollab wC3 (by decide)⟩

/-- Claim C4: dropping a path that is already present (membership decided
by exact string equality) leaves the queue unchanged, and after any
sequence of drop events starting from the empty list the entries are
pairwise distinct. -/
theorem c4_drop_dedup (q : List String) (path : String)
    (drops : List (List String)) (h : existsPath q path = true) :
    dropEvent q [path] = q ∧ (drops.foldl dropEvent []).Nodup := by
  constructor
  · simp [dropEvent, h]
  · exact foldl_dropEvent_nodup drops [] List.nodup_nil

theorem c4_witness :
    existsPath ["a.jpg"] "a.jpg" = true
    ∧ (dropEvent ["a.jpg"] ["a.jpg"] = ["a.jpg"]
       ∧ ([["b.png"], ["a.jpg", "b.png"]].foldl dropEvent []).Nodup) :=
  ⟨by decide,
   c4_drop_dedup ["a.jpg"] "a.jpg" [["b.png"], ["a.jpg", "b.png"]]
     (by decide)⟩

/-- A concrete collaborator whose watermarker always produces a file, whose
optimizer always returns a replacement, and whose key check accepts. -/
def cOpt : Collab :=
  { applyWatermarks := fun ps _ _ => ps.map (fun p => (p, some "out-w.jpg")),
    optimizeFn := fun _ => some "out-wo.jpg",
    validateKey := fun _ => true,
    fileSize := fun _ => 1 }

/-- A concrete settings state with the optimization toggle on. -/
def confOpt : ConfState :=
  { text := "sample", picture := "", optimize := true, tinify_key := "k" }

/-- The loop state at the start of a first batch: zero statistics and a
cold gate cache. -/
def lsInit : LoopState :=
  { stats := { count := 0, size_before := 0, size_after := 0 },
    deleted := [], outputs := [],
    gate := { old_key := none, old_state := none, cached := none },
    validateCalls := 0 }

/-- Claim C5: for a file whose watermarking produced a new path and with
the optimization gate evaluating to true, a replacement returned by the
optimizer means the pre-optimization file is deleted and the replacement
becomes the recorded output (its size is the one accumulated), while a
`None` from the optimizer keeps the unoptimized output and deletes
nothing. -/
theorem c5_optimize_branch (c : Collab) (conf : ConfState) (ls : LoopState)
    (pOrig pNew : String)
    (hgate : (use_optimization c.validateKey conf ls.gate).value = true) :
    (∀ popt, c.optimizeFn pNew = some popt →
        (processStep c conf ls (pOrig, some pNew)).deleted
            = ls.deleted ++ [pNew]
        ∧ (processStep c conf ls (pOrig, some pNew)).outputs
            = ls.outputs ++ [popt]
        ∧ (processStep c conf ls (pOrig, some pNew)).stats.size_after
            = ls.stats.size_after + c.fileSize popt)
    ∧ (c.optimizeFn pNew = none →
        (processStep c conf ls (pOrig, some pNew)).deleted = ls.deleted
        ∧ (processStep c conf ls (pOrig, some pNew)).outputs
            = ls.outputs ++ [pNew]
        ∧ (processStep c conf ls (pOrig, some pNew)).stats.size_after
            = ls.stats.size_after + c.fileSize pNew) := by
  constructor
  · intro popt hopt
    simp [processStep, hgate, hopt]
  · intro hopt
    simp [processStep, hgate, hopt]

theorem c5_witness :
    (use_optimization cOpt.validateKey confOpt lsInit.gate).value = true
    ∧ ((processStep cOpt confOpt lsInit ("a.jpg", some "out-w.jpg")).deleted
          = lsInit.deleted ++ ["out-w.jpg"]
       ∧ (processStep cOpt confOpt lsInit ("a.jpg", some "out-w.jpg")).outputs
          = lsInit.outputs ++ ["out-wo.jpg"]
       ∧ (processStep cOpt confOpt lsInit
            ("a.jpg", some "out-w.jpg")).stats.size_after
          = lsInit.stats.size_after + cOpt.fileSize "out-wo.jpg") :=
  ⟨by decide,
   (c5_optimize_branch cOpt confOpt lsInit "a.jpg" "out-w.jpg" (by decide)).1
     "out-wo.jpg" rfl⟩

/-- The invariant tying the cached gate value to the inputs it was computed
from: whenever a boolean is cached, the remembered key and toggle are set
and the cached value is exactly `toggle && validate_key key`. It holds for
the all-`None` initial cache and is preserved by every read. -/
def CacheCoherent (validateKey : String → Bool) (g : GateCache) : Prop :=
  ∀ b, g.cached = some b →
    ∃ k s, g.old_key = some k ∧ g.old_state = some s
      ∧ b = (s && validateKey k)

theorem use_optimization_value (vk : String → Bool) (conf : ConfState)
    (g : GateCache) (hcoh : CacheCoherent vk g) :
    (use_optimization vk conf g).value
      = (conf.optimize && vk conf.tinify_key) := by
  unfold use_optimization
  by_cases hcond : g.cached = none ∨ some conf.tinify_key ≠ g.old_key
      ∨ some conf.optimize ≠ g.old_state
  · rw [if_pos hcond]
  · rw [if_neg hcond]
    push_neg at hcond
    obtain ⟨h1, h2, h3⟩ := hcond
    obtain ⟨b, hb⟩ := Option.ne_none_iff_exists'.1 h1
    obtain ⟨k, s, hk, hs, hbs⟩ := hcoh b hb
    have hkey : conf.tinify_key = k := Option.some.inj (h2.trans hk)
    have hst : conf.optimize = s := Option.some.inj (h3.trans hs)
    simp [hb, hbs, hkey, hst]

theorem use_optimization_coherent (vk : String → Bool) (conf : ConfState)
    (g : GateCache) (hcoh : CacheCoherent vk g) :
    CacheCoherent vk (use_optimization vk conf g).cache := by
  unfold use_optimization
  by_cases hcond : g.cached = none ∨ some conf.tinify_key ≠ g.old_key
      ∨ some conf.optimize ≠ g.old_state
  · rw [if_pos hcond]
    intro b hb
    exact ⟨conf.tinify_key, conf.optimize, rfl, rfl,
      (Option.some.inj hb).symm⟩
  · rw [if_neg hcond]
    exact hcoh

theorem use_optimization_nochange (vk : String → Bool) (conf : ConfState)
    (g : GateCache) (h1 : g.cached ≠ none)
    (h2 : g.old_key = some conf.tinify_key)
    (h3 : g.old_state = some conf.optimize) :
    (use_optimization vk conf g).validateCalls = 0
    ∧ (use_optimization vk conf g).cache = g := by
  have hcond : ¬(g.cached = none ∨ some conf.tinify_key ≠ g.old_key
      ∨ some conf.optimize ≠ g.old_state) := by
    push_neg
    exact ⟨h1, h2.symm, h3.symm⟩
  unfold use_optimization
  rw [if_neg hcond]
  exact ⟨rfl, rfl⟩

theorem use_optimization_calls_off (vk : String → Bool) (conf : ConfState)
    (hopt : conf.optimize = false) (g : GateCache) :
    (use_optimization vk conf g).validateCalls = 0 := by
  unfold use_optimization
  split
  · simp [hopt]
  · rfl

theorem gateReads_calls_off (vk : String → Bool) (conf : ConfState)
    (hopt : conf.optimize = false) :
    ∀ (n : Nat) (g : GateCache), (gateReads vk conf n g).2 = 0
  | 0, _ => rfl
  | n + 1, g => by
    simp [gateReads, use_optimization_calls_off vk conf hopt,
      gateReads_calls_off vk conf hopt n]

/-- Claim C6: under the cache-coherence invariant (which holds initially
and is preserved by every read), the gate always returns
`optimize_toggle && validate_key key`; when neither the toggle nor the key
has changed since the last evaluation nothing is recomputed (no call, cache
untouched); and while the toggle is off, any number of consecutive reads
performs zero `validate_key` calls. -/
theorem c6_gate_cache (vk : String → Bool) (conf : ConfState)
    (g : GateCache) (n : Nat) (hcoh : CacheCoherent vk g) :
    (use_optimization vk conf g).value
        = (conf.optimize && vk conf.tinify_key)
    ∧ CacheCoherent vk (use_optimization vk conf g).cache
    ∧ (g.cached ≠ none → g.old_key = some conf.tinify_key →
        g.old_state = some conf.optimize →
        (use_optimization vk conf g).validateCalls = 0
        ∧ (use_optimization vk conf g).cache = g)
    ∧ (conf.optimize = false → (gateReads vk conf n g).2 = 0) :=
  ⟨use_optimization_value vk conf g hcoh,
   use_optimization_coherent vk conf g hcoh,
   fun h1 h2 h3 => use_optimization_nochange vk conf g h1 h2 h3,
   fun hopt => gateReads_calls_off vk conf hopt n g⟩

/-- The cold gate cache of a fresh window. -/
def g0 : GateCache := { old_key := none, old_state := none, cached := none }

theorem c6_witness :
    CacheCoherent trivCollab.validateKey g0
    ∧ ((use_optimization trivCollab.validateKey confA g0).value
          = (confA.optimize && trivCollab.validateKey confA.tinify_key)
       ∧ (gateReads trivCollab.validateKey confA 5 g0).2 = 0) := by
  have hcoh : CacheCoherent trivCollab.validateKey g0 := by
    intro b hb
    simp [g0] at hb
  exact ⟨hcoh, (c6_gate_cache trivCollab.validateKey confA g0 5 hcoh).1,
    (c6_gate_cache trivCollab.validateKey confA g0 5 hcoh).2.2.2 rfl⟩

theorem char_toNat_inj (a b : Char) (h : a.toNat = b.toNat) : a = b :=
  Char.ext_iff.mpr (UInt32.ext_iff.mpr h)

theorem string_data_inj (a b : String) (h : a.data = b.data) : a = b := by
  cases a
  cases b
  simp_all

theorem lexLt_trans : ∀ (a b c : List Char),
    lexLt a b = true → lexLt b c = true → lexLt a c = true
  | [], [], _, h1, _ => by simp [lexLt] at h1
  | [], _ :: _, [], _, h2 => by simp [lexLt] at h2
  | [], _ :: _, _ :: _, _, _ => rfl
  | _ :: _, [], _, h1, _ => by simp [lexLt] at h1
  | _ :: _, _ :: _, [], _, h2 => by simp [lexLt] at h2
  | a :: as, b :: bs, c :: cs, h1, h2 => by
    by_cases hab : a.toNat < b.toNat
    · by_cases hbc : b.toNat < c.toNat
      · have hac : a.toNat < c.toNat := lt_trans hab hbc
        simp [lexLt, hac]
      · have hcb : ¬ c.toNat < b.toNat := by
          intro hcb
          simp [lexLt, hbc, hcb] at h2
        have hac : a.toNat < c.toNat := by omega
        simp [lexLt, hac]
    · have hba : ¬ b.toNat < a.toNat := by
        intro hba
        simp [lexLt, hab, hba] at h1
      have h1x : lexLt as bs = true := by simpa [lexLt, hab, hba] using h1
      by_cases hbc : b.toNat < c.toNat
      · have hac : a.toNat < c.toNat := by omega
        simp [lexLt, hac]
      · have hcb : ¬ c.toNat < b.toNat := by
          intro hcb
          simp [lexLt, hbc, hcb] at h2
        have h2x : lexLt bs cs = true := by simpa [lexLt, hbc, hcb] using h2
        have hac : ¬ a.toNat < c.toNat := by omega
        have hca : ¬ c.toNat < a.toNat := by omega
        simpa [lexLt, hac, hca] using lexLt_trans as bs cs h1x h2x

theorem lexLt_total : ∀ (a b : List Char),
    lexLt a b = false → a ≠ b → lexLt b a = true
  | [], [], _, hne => absurd rfl hne
  | [], _ :: _, h, _ => by simp [lexLt] at h
  | _ :: _, [], _, _ => rfl
  | a :: as, b :: bs, h, hne => by
    by_cases hab : a.toNat < b.toNat
    · simp [lexLt, hab] at h
    · by_cases hba : b.toNat < a.toNat
      · simp [lexLt, hba]
      · have hx : lexLt as bs = false := by simpa [lexLt, hab, hba] using h
        have heq : a = b := char_toNat_inj a b (by omega)
        have hne2 : as ≠ bs := by
          intro e
          exact hne (by rw [heq, e])
        simpa [lexLt, hab, hba] using lexLt_total as bs hx hne2

theorem strLt_trans {a b c : String} (h1 : strLt a b = true)
    (h2 : strLt b c = true) : strLt a c = true :=
  lexLt_trans a.data b.data c.data h1 h2

theorem strLt_total {a b : String} (h : strLt a b = false) (hne : a ≠ b) :
    strLt b a = true :=
  lexLt_total a.data b.data h (fun e => hne (string_data_inj a b e))

theorem insertSorted_sorted (p : String) :
    ∀ l : List String, List.Sorted (fun a b => strLt a b = true) l →
      p ∉ l → List.Sorted (fun a b => strLt a b = true) (insertSorted p l)
  | [], _, _ => by simp [insertSorted]
  | q :: qs, h, hp => by
    rw [insertSorted]
    rcases List.sorted_cons.1 h with ⟨hq, hqs⟩
    by_cases hlt : strLt p q = true
    · rw [if_pos hlt]
      refine List.sorted_cons.2 ⟨?_, h⟩
      intro b hb
      rcases List.mem_cons.1 hb with rfl | hb
      · exact hlt
      · exact strLt_trans hlt (hq b hb)
    · rw [if_neg hlt]
      have hne : p ≠ q := by
        intro e
        subst e
        exact hp (List.mem_cons_self p qs)
      have hql : strLt q p = true :=
        strLt_total (Bool.eq_false_iff.2 hlt) hne
      refine List.sorted_cons.2 ⟨?_, ?_⟩
      · intro b hb
        rcases mem_insertSorted.1 hb with rfl | hb
        · exact hql
        · exact hq b hb
      · exact insertSorted_sorted p qs hqs
          (fun hm => hp (List.mem_cons_of_mem q hm))

theorem dropEvent_sorted :
    ∀ (urls items : List String),
      List.Sorted (fun a b => strLt a b = true) items →
      List.Sorted (fun a b => strLt a b = true) (dropEvent items urls)
  | [], _, h => h
  | u :: us, items, h => by
    rw [dropEvent_cons]
    apply dropEvent_sorted us
    by_cases hx : existsPath items u = true
    · rw [if_pos hx]
      exact h
    · rw [if_neg hx]
      exact insertSorted_sorted u items h
        (existsPath_eq_false.1 (Bool.eq_false_iff.2 hx))

theorem foldl_dropEvent_sorted :
    ∀ (drops : List (List String)) (items : List String),
      List.Sorted (fun a b => strLt a b = true) items →
      List.Sorted (fun a b => strLt a b = true) (drops.foldl dropEvent items)
  | [], _, h => h
  | d :: ds, items, h =>
    foldl_dropEvent_sorted ds (dropEvent items d) (dropEvent_sorted d items h)

theorem mem_dropEvent {p : String} :
    ∀ (urls items : List String),
      p ∈ dropEvent items urls ↔ p ∈ items ∨ p ∈ urls
  | [], items => by simp [dropEvent]
  | u :: us, items => by
    rw [dropEvent_cons, mem_dropEvent us]
    by_cases hx : existsPath items u = true
    · rw [if_pos hx]
      have hu : u ∈ items := existsPath_iff.1 hx
      simp only [List.mem_cons]
      constructor
      · rintro (h | h)
        · exact Or.inl h
        · exact Or.inr (Or.inr h)
      · rintro (h | rfl | h)
        · exact Or.inl h
        · exact Or.inl hu
        · exact Or.inr h
    · rw [if_neg hx]
      simp only [mem_insertSorted, List.mem_cons]
      tauto

theorem mem_foldl_dropEvent {p : String} :
    ∀ (drops : List (List String)) (items : List String),
      p ∈ drops.foldl dropEvent items ↔ p ∈ items ∨ ∃ d ∈ drops, p ∈ d
  | [], items => by simp
  | d :: ds, items => by
    rw [List.foldl_cons, mem_foldl_dropEvent ds, mem_dropEvent,
      List.exists_mem_cons_iff]
    tauto

theorem handed_eq_queue (c : Collab) (w : WinState) :
    (_process_all c w).handed = w.queue := by
  cases hq : w.queue with
  | nil => simp [_process_all, hq]
  | cons a l => simp [_process_all, hq]

/-- Claim C7 counterexample: dropping `b.png` first and `a.jpg` second
yields the queue `[a.jpg, b.png]` (the list auto-sorts), and that is the
order handed to the watermarking collaborator - not the insertion order
`[b.png, a.jpg]`. -/
theorem c7_counterexample :
    wDropBA.queue = dropEvent (dropEvent [] ["b.png"]) ["a.jpg"]
    ∧ (_process_all trivCollab wDropBA).handed = ["a.jpg", "b.png"]
    ∧ (_process_all trivCollab wDropBA).handed ≠ ["b.png", "a.jpg"] := by
  refine ⟨rfl, by decide, by decide⟩

/-- Claim C7 (amended): the files are handed to the watermarking
collaborator in queue order, but queue order is ascending string order of
the paths (the list widget auto-sorts), not the insertion/drop order; the
queue holds exactly the distinct paths dropped so far. -/
theorem c7_sorted_order (c : Collab) (drops : List (List String))
    (w : WinState) (hw : w.queue = drops.foldl dropEvent []) :
    (_process_all c w).handed = w.queue
    ∧ List.Sorted (fun a b => strLt a b = true) w.queue
    ∧ (∀ p, p ∈ w.queue ↔ ∃ d ∈ drops, p ∈ d) := by
  refine ⟨handed_eq_queue c w, ?_, ?_⟩
  · rw [hw]
    exact foldl_dropEvent_sorted drops [] List.sorted_nil
  · intro p
    rw [hw, mem_foldl_dropEvent]
    simp

theorem c7_witness :
    wDropBA.queue = [["b.png"], ["a.jpg"]].foldl dropEvent []
    ∧ ((_process_all trivCollab wDropBA).handed = wDropBA.queue
       ∧ List.Sorted (fun a b => strLt a b = true) wDropBA.queue
       ∧ (∀ p, p ∈ wDropBA.queue ↔ ∃ d ∈ [["b.png"], ["a.jpg"]], p ∈ d)) :=
  ⟨rfl, c7_sorted_order trivCollab [["b.png"], ["a.jpg"]] wDropBA rfl⟩

/-- Componentwise order on the three accumulated statistics. -/
def statsLE (s t : Stats) : Prop :=
  s.count ≤ t.count ∧ s.size_before ≤ t.size_before
    ∧ s.size_after ≤ t.size_after

theorem statsLE_refl (s : Stats) : statsLE s s :=
  ⟨le_refl _, le_refl _, le_refl _⟩

theorem statsLE_trans {s t u : Stats} (h1 : statsLE s t) (h2 : statsLE t u) :
    statsLE s u :=
  ⟨le_trans h1.1 h2.1, le_trans h1.2.1 h2.2.1, le_trans h1.2.2 h2.2.2⟩

theorem processStep_statsLE (c : Collab) (conf : ConfState) (ls : LoopState)
    (r : String × Option String) :
    statsLE ls.stats (processStep c conf ls r).stats := by
  match r with
  | (p, none) => exact statsLE_refl ls.stats
  | (p, some q) =>
    exact ⟨Nat.le_succ _, Nat.le_add_right _ _, Nat.le_add_right _ _⟩

theorem foldl_processStep_statsLE (c : Collab) (conf : ConfState) :
    ∀ (results : List (String × Option String)) (ls0 : LoopState),
      statsLE ls0.stats ((results.foldl (processStep c conf) ls0)).stats
  | [], _ => statsLE_refl _
  | r :: rs, ls0 =>
    statsLE_trans (processStep_statsLE c conf ls0 r)
      (foldl_processStep_statsLE c conf rs (processStep c conf ls0 r))

theorem process_all_statsLE (c : Collab) (w : WinState) :
    statsLE w.stats (_process_all c w).window.stats := by
  cases hq : w.queue with
  | nil =>
    simp [_process_all, hq]
    exact statsLE_refl w.stats
  | cons a l =>
    simp [_process_all, hq]
    exact foldl_processStep_statsLE c
      { text := w.textField, picture := w.pictureField,
        optimize := w.conf.optimize, tinify_key := w.conf.tinify_key }
      (c.applyWatermarks (a :: l) w.textField w.pictureField)
      { stats := w.stats, deleted := [], outputs := [],
        gate := w.gate, validateCalls := 0 }

theorem foldl_runs_statsLE :
    ∀ (cs : List Collab) (w : WinState),
      statsLE w.stats
        ((cs.foldl (fun w2 c => (_process_all c w2).window) w)).stats
  | [], _ => statsLE_refl _
  | c :: cs, w =>
    statsLE_trans (process_all_statsLE c w)
      (foldl_runs_statsLE cs (_process_all c w).window)

/-- Claim C8: the statistics start at zero at window construction, every
batch run can only increase them componentwise, and chaining any number of
batch runs keeps them monotonically non-decreasing - nothing ever resets
them. -/
theorem c8_stats_monotone (vk : String → Bool) (conf : ConfState) :
    (initWindow vk conf).stats
        = { count := 0, size_before := 0, size_after := 0 }
    ∧ (∀ (c : Collab) (w : WinState),
        statsLE w.stats (_process_all c w).window.stats)
    ∧ (∀ (cs : List Collab) (w : WinState),
        statsLE w.stats
          ((cs.foldl (fun w2 c => (_process_all c w2).window) w)).stats) :=
  ⟨rfl, fun c w => process_all_statsLE c w,
   fun cs w => foldl_runs_statsLE cs w⟩

/-- Claim C9: on the platform where the startup update check runs, any
failure of the update collaborator is caught and turned into the
`UPDATE_ERROR` status-bar message (the check is total, never fatal); by
contrast the batch processor installs no handler, so a failing
watermarking collaborator propagates out of `_process_all` unchanged. -/
theorem c9_update_check_boundary (e : String) :
    _check_for_update true (Except.error e) = some UPDATE_ERROR
    ∧ (∀ (e2 : String) (c : Collab) (w : WinState), w.queue ≠ [] →
        _process_all_fallible (Except.error e2) c w = Except.error e2) := by
  constructor
  · rfl
  · intro e2 c w h
    have hfalse : w.queue.isEmpty = false := by
      cases hq : w.queue with
      | nil => exact absurd hq h
      | cons a l => rfl
    simp [_process_all_fallible, hfalse]

theorem c9_witness :
    wC3.queue ≠ []
    ∧ (_check_for_update true (Except.error "timeout") = some UPDATE_ERROR
       ∧ _process_all_fallible (Except.error "timeout") trivCollab wC3
           = Except.error "timeout") :=
  ⟨by decide,
   (c9_update_check_boundary "timeout").1,
   (c9_update_check_boundary "timeout").2 "timeout" trivCollab wC3
     (by decide)⟩

/-- A concrete window with an empty queue. -/
def wEmpty : WinState := { wC3 with queue := [] }

/-- Claim C10: a batch triggered on an empty queue still writes the two
line edits into `CONF.text` and `CONF.picture`, and nothing else happens:
the window is otherwise untouched (statistics, queue, gate cache, button
enablement), no collaborator is invoked, nothing is deleted or produced,
and the button state is not recomputed. -/
theorem c10_empty_queue_frame (c : Collab) (w : WinState)
    (h : w.queue = []) :
    (_process_all c w).window
        = { w with conf := { w.conf with
              text := w.textField, picture := w.pictureField } }
    ∧ (_process_all c w).wmCalled = false
    ∧ (_process_all c w).validateCalls = 0
    ∧ (_process_all c w).buttonRecomputed = false
    ∧ (_process_all c w).deleted = []
    ∧ (_process_all c w).outputs = []
    ∧ (_process_all c w).handed = [] := by
  have hempty : w.queue.isEmpty = true := by
    rw [h]
    rfl
  simp [_process_all, hempty]

theorem c10_witness :
    wEmpty.queue = []
    ∧ ((_process_all trivCollab wEmpty).window
          = { wEmpty with conf := { wEmpty.conf with
                text := wEmpty.textField, picture := wEmpty.pictureField } }
       ∧ (_process_all trivCollab wEmpty).wmCalled = false
       ∧ (_process_all trivCollab wEmpty).validateCalls = 0
       ∧ (_process_all trivCollab wEmpty).buttonRecomputed = false
       ∧ (_process_all trivCollab wEmpty).deleted = []
       ∧ (_process_all trivCollab wEmpty).outputs = []
       ∧ (_process_all trivCollab wEmpty).handed = []) :=
  ⟨rfl, c10_empty_queue_frame trivCollab wEmpty rfl⟩
